import Mathlib

/-!
Verification of the 5ire streaming chat orchestration engine
(`NextCharService` in `src/intellichat/services/NextChatService.ts`) and the
chat store's message processing (`src/stores/useChatStore.ts`).

The orchestrator's mutable instance fields (`currentRecursionDepth`,
`inputTokens`, `outputTokens`, `toolCallsWithResponses`) are modelled as an
explicit state record threaded through `chat`.  The external world — the HTTP
layer, the stream reader, and the MCP tool host — is modelled as an
environment `env : Nat → RoundOutcome` giving, for each round-trip that
issues a network request, what that round's request/read produced.  The
observer callbacks (`onReadingCallback`, `onErrorCallback`,
`onCompleteCallback`) and the externally visible side effects (network
request issued, `window.electron.mcp.callTool` invoked) are modelled as an
emitted trace of `Event`s; the depth counter increment/decrement and the
function entry are also traced so that claims about them are statable.

Recursion in the source is bounded: each recursive `chat` call runs at depth
one greater, and the ceiling check stops at `MAX_RECURSION_DEPTH`.  The Lean
definition uses a fuel parameter for structural termination; fuel
`MAX_RECURSION_DEPTH + 1 - depth` (supplied by the `chat` wrapper) is always
sufficient, so the fuel-exhaustion branch is unreachable for every state the
source can be in (depth ≤ 10).
-/

/-- A pending tool call as delivered in a `StreamReadResult` (`readResult.tool`):
the composite qualified name and the arguments payload (kept opaque). -/
structure PendingTool where
  name : String
  args : String
deriving DecidableEq, Repr

/-- `IToolCall` as accumulated in `toolCallsWithResponses`: the full qualified
name, the arguments, and the tool host's response (opaque payload). -/
structure ToolCall where
  name : String
  args : String
  response : String
deriving DecidableEq, Repr

/-- The `{code, message}` error object placed in a completion payload's
`error` field. -/
structure ErrObj where
  code : Nat
  message : String
deriving DecidableEq, Repr

/-- A thrown JavaScript error as observed by the `catch` block: an optional
numeric `code` property and a message.  `error.code || 500` is modelled by
`jsErrCode` below (note `0` is falsy in JavaScript). -/
structure ThrownError where
  code : Option Nat
  message : String
deriving DecidableEq, Repr

/-- `error.code || 500` from the catch block: absent or zero code falls back
to 500. -/
def jsErrCode (c : Option Nat) : Nat :=
  match c with
  | some c => if c = 0 then 500 else c
  | none => 500

/-- The completion payload handed to `onCompleteCallback`
(`IChatResponseMessage`): content, tool calls, cumulative token counts and an
optional error descriptor. -/
structure ChatOutcome where
  content : String
  toolCalls : List ToolCall
  inputTokens : Nat
  outputTokens : Nat
  error : Option ErrObj
deriving DecidableEq, Repr

/-- The result of draining one streamed response (`chatReader.read`):
the progress chunks delivered while reading (they accumulate into `reply`),
token counts (0 models an absent/zero field — both are falsy in JS),
an optional single pending tool call, an optional list of already-finalized
tool calls, and an optional non-fatal error. -/
structure ReadResult where
  chunks : List String
  inputTokens : Nat
  outputTokens : Nat
  tool : Option PendingTool
  toolCalls : Option (List ToolCall)
  error : Option ErrObj
deriving DecidableEq, Repr

/-- What the external world does in one round-trip (one network request):
either the response body has no reader (`response.body?.getReader()` is
undefined), or an exception is thrown during the request/read (after having
delivered some progress chunks), carrying the abort flag `signal.aborted`,
or the read completes with a `ReadResult` (together with the value the tool
host returns on its normal result channel, used when a tool is pending). -/
inductive RoundOutcome where
  | noReader
  | throwErr (chunksBefore : List String) (e : ThrownError) (aborted : Bool)
  | ok (r : ReadResult) (toolResult : String)
deriving DecidableEq, Repr

/-- The argument object built for `window.electron.mcp.callTool({client, name, args})`.
The source constructs the object literal with exactly the three properties
`client`, `name`, `args`; the `signal` field records whether an abort signal
is attached to the invocation (it is not — the literal has no such property,
hence `none` in `mkCallToolRequest`).  `name` is `Option String` because the
destructuring `[client, name] = tool.name.split('--')` leaves `name`
undefined when the qualified name contains no separator. -/
structure CallToolRequest where
  client : String
  name : Option String
  args : String
  signal : Option Unit
deriving DecidableEq, Repr

/-- Helper for `splitDashDash`: scan the characters, cutting at every
occurrence of `--`. -/
def splitDashDashAux : List Char → List Char → List (List Char)
  | '-' :: '-' :: rest, acc => acc.reverse :: splitDashDashAux rest []
  | c :: rest, acc => splitDashDashAux rest (c :: acc)
  | [], acc => [acc.reverse]

/-- JavaScript `str.split('--')` — the split used at the single call site
`tool.name.split('--')`: the string is split on **every** occurrence of the
separator (no limit, no escaping). -/
def splitDashDash (s : String) : List String :=
  (splitDashDashAux s.toList []).map List.asString

/-- The tool-host invocation as constructed at the call site: only
`client`, `name` and `args` are passed; no cancellation signal. -/
def mkCallToolRequest (client : String) (name : Option String) (args : String) :
    CallToolRequest :=
  { client := client, name := name, args := args, signal := none }

/-- The `fetch` options object built by `MoonshotChatService.makeRequest`:
method POST, JSON content type, bearer authorization, the serialized payload,
and the per-round `AbortController`'s signal. -/
structure FetchRequestInit where
  method : String
  headers : List (String × String)
  body : String
  signal : Option Unit
deriving DecidableEq, Repr

/-- `MoonshotChatService.makeRequest`'s fetch options: the abort signal is
attached (`signal: this.abortController.signal`). -/
def moonshotFetchInit (key : String) (body : String) : FetchRequestInit :=
  { method := "POST"
    headers := [("Content-Type", "application/json"),
                ("Authorization", "Bearer " ++ key)]
    body := body
    signal := some () }

/-- The orchestrator's mutable instance fields relevant to `chat`. -/
structure SvcState where
  currentRecursionDepth : Nat
  inputTokens : Nat
  outputTokens : Nat
  toolCallsWithResponses : List ToolCall
deriving DecidableEq, Repr

/-- Observable events of one `chat` run: function entry, the depth counter
increment (line `this.currentRecursionDepth++`) and decrement (the `finally`
block), a network request being issued (`makeRequest`), a progress chunk
(`onReadingCallback`), the error callback, a tool-host invocation, and the
completion callback. -/
inductive Event where
  | enter
  | depthInc
  | depthDec
  | request
  | progress (chunk : String)
  | errorCb (e : ThrownError) (aborted : Bool)
  | callTool (req : CallToolRequest)
  | complete (o : ChatOutcome)
deriving DecidableEq, Repr

/-- `this.MAX_RECURSION_DEPTH`. -/
def MAX_RECURSION_DEPTH : Nat := 10

/-- The message of the synthetic depth-ceiling error. -/
def maxDepthMessage : String :=
  "Maximum recursion depth (" ++ toString MAX_RECURSION_DEPTH ++
    ") reached for tool calls."

/-- The completion payload emitted when the recursion ceiling is hit. -/
def ceilingOutcome (st : SvcState) : ChatOutcome :=
  { content := "Maximum recursion depth reached for tool calls."
    toolCalls := st.toolCallsWithResponses
    inputTokens := st.inputTokens
    outputTokens := st.outputTokens
    error := some { code := 500, message := maxDepthMessage } }

/-- The top-of-function reset: `if (this.currentRecursionDepth === 0) {
this.toolCallsWithResponses = []; }`. -/
def resetIfTop (st : SvcState) : SvcState :=
  if st.currentRecursionDepth = 0 then { st with toolCallsWithResponses := [] }
  else st

/-- One entry of `NextCharService.chat`, fuelled.  Parameters: the
environment `env` (indexed by the number of requests issued so far in this
top-level chain), the abstract `makeToolMessages` strategy `mk`, the fuel,
the request index `round`, the current message list and the instance state.
Returns the emitted event trace and the final instance state.  Mirrors the
source line by line: top-level reset, ceiling check (emit error-500 outcome,
no request, no depth changes), depth increment, request; then the
missing-reader early return (error callback only, no completion), the catch
block (error callback, completion with partial reply and accumulated tool
calls, token reset), or the read result: token accumulation (guarded by JS
truthiness), and either the tool branch (split the qualified name on `--`,
invoke the tool host, push the tool call with its response, recurse with the
extended message list) or the terminal branch (merge accumulated and
finalized tool calls, emit the completion, reset the token counters).  The
`finally` depth decrement closes every non-ceiling path. -/
def chatAux (env : Nat → RoundOutcome) (mk : PendingTool → String → List String) :
    Nat → Nat → List String → SvcState → List Event × SvcState
  | 0, _, _, st => ([], st)
  | fuel + 1, round, msgs, st =>
    let st0 := resetIfTop st
    if st0.currentRecursionDepth ≥ MAX_RECURSION_DEPTH then
      ([.enter, .complete (ceilingOutcome st0)], st0)
    else
      let st1 := { st0 with currentRecursionDepth := st0.currentRecursionDepth + 1 }
      match env round with
      | .noReader =>
        ([.enter, .depthInc, .request, .errorCb ⟨none, "No reader"⟩ false, .depthDec],
         { st1 with currentRecursionDepth := st1.currentRecursionDepth - 1 })
      | .throwErr chunks e aborted =>
        let reply := String.join chunks
        ([.enter, .depthInc, .request] ++ chunks.map .progress ++
           [.errorCb e aborted,
            .complete { content := reply
                        toolCalls := st1.toolCallsWithResponses
                        inputTokens := st1.inputTokens
                        outputTokens := st1.outputTokens
                        error := some { code := jsErrCode e.code, message := e.message } },
            .depthDec],
         { st1 with inputTokens := 0, outputTokens := 0,
                    currentRecursionDepth := st1.currentRecursionDepth - 1 })
      | .ok r toolResult =>
        let reply := String.join r.chunks
        let st2 := { st1 with
          inputTokens := if r.inputTokens ≠ 0 then st1.inputTokens + r.inputTokens
                         else st1.inputTokens
          outputTokens := if r.outputTokens ≠ 0 then st1.outputTokens + r.outputTokens
                          else st1.outputTokens }
        match r.tool with
        | some t =>
          let parts := splitDashDash t.name
          let client := parts.headD ""
          let name := parts.get? 1
          let newToolCall : ToolCall := { name := t.name, args := t.args, response := toolResult }
          let st3 := { st2 with
            toolCallsWithResponses := st2.toolCallsWithResponses ++ [newToolCall] }
          let inner := chatAux env mk fuel (round + 1) (msgs ++ mk t toolResult) st3
          ([.enter, .depthInc, .request] ++ r.chunks.map .progress ++
             [.callTool (mkCallToolRequest client name t.args)] ++ inner.1 ++ [.depthDec],
           { inner.2 with currentRecursionDepth := inner.2.currentRecursionDepth - 1 })
        | none =>
          let allToolCalls := st2.toolCallsWithResponses ++ r.toolCalls.getD []
          ([.enter, .depthInc, .request] ++ r.chunks.map .progress ++
             [.complete { content := reply
                          toolCalls := allToolCalls
                          inputTokens := st2.inputTokens
                          outputTokens := st2.outputTokens
                          error := r.error },
              .depthDec],
           { st2 with inputTokens := 0, outputTokens := 0,
                      currentRecursionDepth := st2.currentRecursionDepth - 1 })

/-- `NextCharService.chat`: the fuel `MAX_RECURSION_DEPTH + 1 - depth` always
suffices (each recursive call consumes one unit and increases the depth by
one, and the ceiling stops recursion at depth `MAX_RECURSION_DEPTH`). -/
def chat (env : Nat → RoundOutcome) (mk : PendingTool → String → List String)
    (round : Nat) (msgs : List String) (st : SvcState) : List Event × SvcState :=
  chatAux env mk (MAX_RECURSION_DEPTH + 1 - st.currentRecursionDepth) round msgs st

/-- Completion-callback events. -/
def Event.isComplete : Event → Bool
  | .complete _ => true
  | _ => false

/-- Network-request events. -/
def Event.isRequest : Event → Bool
  | .request => true
  | _ => false

/-- Function-entry events. -/
def Event.isEnter : Event → Bool
  | .enter => true
  | _ => false

/-- Depth-increment events. -/
def Event.isDepthInc : Event → Bool
  | .depthInc => true
  | _ => false

/-- Depth-decrement events. -/
def Event.isDepthDec : Event → Bool
  | .depthDec => true
  | _ => false

/-- The completion payloads occurring in a trace, in order. -/
def getCompletions (evs : List Event) : List ChatOutcome :=
  evs.filterMap fun e =>
    match e with
    | .complete o => some o
    | _ => none

/-- Rounds whose response body has no reader. -/
def RoundOutcome.isNoReader : RoundOutcome → Bool
  | .noReader => true
  | _ => false

/-- Rounds that complete the read with a pending tool call. -/
def RoundOutcome.hasPendingTool : RoundOutcome → Bool
  | .ok r _ => r.tool.isSome
  | _ => false

/-! ### Basic lemmas about the state and the branch equations -/

theorem resetIfTop_depth (st : SvcState) :
    (resetIfTop st).currentRecursionDepth = st.currentRecursionDepth := by
  unfold resetIfTop; split <;> rfl

theorem resetIfTop_inputTokens (st : SvcState) :
    (resetIfTop st).inputTokens = st.inputTokens := by
  unfold resetIfTop; split <;> rfl

theorem resetIfTop_outputTokens (st : SvcState) :
    (resetIfTop st).outputTokens = st.outputTokens := by
  unfold resetIfTop; split <;> rfl

theorem resetIfTop_of_ne (st : SvcState) (h : st.currentRecursionDepth ≠ 0) :
    resetIfTop st = st := by
  unfold resetIfTop; simp [h]

theorem resetIfTop_of_zero (st : SvcState) (h : st.currentRecursionDepth = 0) :
    resetIfTop st = { st with toolCallsWithResponses := [] } := by
  unfold resetIfTop; simp [h]

theorem addIfNonzero (x a : Nat) : (if a ≠ 0 then x + a else x) = x + a := by
  by_cases h : a = 0 <;> simp [h]

theorem chatAux_succ_ceiling (env : Nat → RoundOutcome)
    (mk : PendingTool → String → List String) (fuel round : Nat)
    (msgs : List String) (st : SvcState)
    (h : MAX_RECURSION_DEPTH ≤ (resetIfTop st).currentRecursionDepth) :
    chatAux env mk (fuel + 1) round msgs st =
      ([.enter, .complete (ceilingOutcome (resetIfTop st))], resetIfTop st) := by
  rw [chatAux]
  simp only [ge_iff_le, if_pos h]

theorem chatAux_succ_noReader (env : Nat → RoundOutcome)
    (mk : PendingTool → String → List String) (fuel round : Nat)
    (msgs : List String) (st : SvcState)
    (h : (resetIfTop st).currentRecursionDepth < MAX_RECURSION_DEPTH)
    (henv : env round = .noReader) :
    chatAux env mk (fuel + 1) round msgs st =
      ([.enter, .depthInc, .request, .errorCb ⟨none, "No reader"⟩ false, .depthDec],
       resetIfTop st) := by
  rw [chatAux]
  simp only [ge_iff_le, if_neg (not_le.mpr h), henv, Nat.add_sub_cancel]

theorem chatAux_succ_throwErr (env : Nat → RoundOutcome)
    (mk : PendingTool → String → List String) (fuel round : Nat)
    (msgs : List String) (st : SvcState) (chunks : List String)
    (e : ThrownError) (aborted : Bool)
    (h : (resetIfTop st).currentRecursionDepth < MAX_RECURSION_DEPTH)
    (henv : env round = .throwErr chunks e aborted) :
    chatAux env mk (fuel + 1) round msgs st =
      ([.enter, .depthInc, .request] ++ chunks.map .progress ++
         [.errorCb e aborted,
          .complete { content := String.join chunks
                      toolCalls := (resetIfTop st).toolCallsWithResponses
                      inputTokens := (resetIfTop st).inputTokens
                      outputTokens := (resetIfTop st).outputTokens
                      error := some { code := jsErrCode e.code, message := e.message } },
          .depthDec],
       { resetIfTop st with inputTokens := 0, outputTokens := 0 }) := by
  rw [chatAux]
  simp only [ge_iff_le, if_neg (not_le.mpr h), henv, Nat.add_sub_cancel]

theorem chatAux_succ_ok_tool (env : Nat → RoundOutcome)
    (mk : PendingTool → String → List String) (fuel round : Nat)
    (msgs : List String) (st : SvcState) (r : ReadResult) (toolResult : String)
    (t : PendingTool)
    (h : (resetIfTop st).currentRecursionDepth < MAX_RECURSION_DEPTH)
    (henv : env round = .ok r toolResult)
    (htool : r.tool = some t) :
    chatAux env mk (fuel + 1) round msgs st =
      (([.enter, .depthInc, .request] ++ r.chunks.map .progress ++
         [.callTool (mkCallToolRequest ((splitDashDash t.name).headD "")
            ((splitDashDash t.name).get? 1) t.args)] ++
         (chatAux env mk fuel (round + 1) (msgs ++ mk t toolResult)
           { currentRecursionDepth := (resetIfTop st).currentRecursionDepth + 1
             inputTokens := (resetIfTop st).inputTokens + r.inputTokens
             outputTokens := (resetIfTop st).outputTokens + r.outputTokens
             toolCallsWithResponses := (resetIfTop st).toolCallsWithResponses ++
               [{ name := t.name, args := t.args, response := toolResult }] }).1 ++
         [.depthDec]),
       { (chatAux env mk fuel (round + 1) (msgs ++ mk t toolResult)
           { currentRecursionDepth := (resetIfTop st).currentRecursionDepth + 1
             inputTokens := (resetIfTop st).inputTokens + r.inputTokens
             outputTokens := (resetIfTop st).outputTokens + r.outputTokens
             toolCallsWithResponses := (resetIfTop st).toolCallsWithResponses ++
               [{ name := t.name, args := t.args, response := toolResult }] }).2 with
         currentRecursionDepth :=
           ((chatAux env mk fuel (round + 1) (msgs ++ mk t toolResult)
             { currentRecursionDepth := (resetIfTop st).currentRecursionDepth + 1
               inputTokens := (resetIfTop st).inputTokens + r.inputTokens
               outputTokens := (resetIfTop st).outputTokens + r.outputTokens
               toolCallsWithResponses := (resetIfTop st).toolCallsWithResponses ++
                 [{ name := t.name, args := t.args, response := toolResult }] }).2).currentRecursionDepth - 1 }) := by
  rw [chatAux]
  simp only [ge_iff_le, if_neg (not_le.mpr h), henv, htool, addIfNonzero]

theorem chatAux_succ_ok_noTool (env : Nat → RoundOutcome)
    (mk : PendingTool → String → List String) (fuel round : Nat)
    (msgs : List String) (st : SvcState) (r : ReadResult) (toolResult : String)
    (h : (resetIfTop st).currentRecursionDepth < MAX_RECURSION_DEPTH)
    (henv : env round = .ok r toolResult)
    (htool : r.tool = none) :
    chatAux env mk (fuel + 1) round msgs st =
      ([.enter, .depthInc, .request] ++ r.chunks.map .progress ++
         [.complete { content := String.join r.chunks
                      toolCalls := (resetIfTop st).toolCallsWithResponses ++ r.toolCalls.getD []
                      inputTokens := (resetIfTop st).inputTokens + r.inputTokens
                      outputTokens := (resetIfTop st).outputTokens + r.outputTokens
                      error := r.error },
          .depthDec],
       { resetIfTop st with inputTokens := 0, outputTokens := 0 }) := by
  rw [chatAux]
  simp only [ge_iff_le, if_neg (not_le.mpr h), henv, htool, addIfNonzero,
    Nat.add_sub_cancel]

/-! ### Invariants proved by induction on the fuel -/

@[simp] theorem Event.isDepthInc_progress (c : String) :
    Event.isDepthInc (.progress c) = false := rfl

@[simp] theorem Event.isDepthDec_progress (c : String) :
    Event.isDepthDec (.progress c) = false := rfl

@[simp] theorem Event.isComplete_progress (c : String) :
    Event.isComplete (.progress c) = false := rfl

@[simp] theorem Event.isRequest_progress (c : String) :
    Event.isRequest (.progress c) = false := rfl

@[simp] theorem Event.isEnter_progress (c : String) :
    Event.isEnter (.progress c) = false := rfl

/-- Progress events contribute nothing to a count of non-progress events. -/
theorem countP_map_progress (p : Event → Bool) (l : List String)
    (h : ∀ c, p (.progress c) = false) :
    List.countP p (l.map .progress) = 0 := by
  induction l with
  | nil => rfl
  | cons a l ih => simp [List.countP_cons, h, ih]

theorem chatAux_final_depth (env : Nat → RoundOutcome)
    (mk : PendingTool → String → List String) :
    ∀ fuel round msgs st,
      ((chatAux env mk fuel round msgs st).2).currentRecursionDepth =
        st.currentRecursionDepth := by
  intro fuel
  induction fuel with
  | zero => intro round msgs st; rfl
  | succ f ih =>
    intro round msgs st
    by_cases hc : MAX_RECURSION_DEPTH ≤ (resetIfTop st).currentRecursionDepth
    · rw [chatAux_succ_ceiling env mk f round msgs st hc, resetIfTop_depth]
    · have hlt := lt_of_not_le hc
      cases henv : env round with
      | noReader =>
        rw [chatAux_succ_noReader env mk f round msgs st hlt henv, resetIfTop_depth]
      | throwErr chunks e aborted =>
        rw [chatAux_succ_throwErr env mk f round msgs st chunks e aborted hlt henv]
        exact resetIfTop_depth st
      | ok r toolResult =>
        cases htool : r.tool with
        | none =>
          rw [chatAux_succ_ok_noTool env mk f round msgs st r toolResult hlt henv htool]
          exact resetIfTop_depth st
        | some t =>
          rw [chatAux_succ_ok_tool env mk f round msgs st r toolResult t hlt henv htool]
          simp only [ih, resetIfTop_depth, Nat.add_sub_cancel]

theorem chatAux_depth_balance (env : Nat → RoundOutcome)
    (mk : PendingTool → String → List String) :
    ∀ fuel round msgs st,
      ((chatAux env mk fuel round msgs st).1).countP Event.isDepthInc =
        ((chatAux env mk fuel round msgs st).1).countP Event.isDepthDec := by
  intro fuel
  induction fuel with
  | zero => intro round msgs st; rfl
  | succ f ih =>
    intro round msgs st
    by_cases hc : MAX_RECURSION_DEPTH ≤ (resetIfTop st).currentRecursionDepth
    · rw [chatAux_succ_ceiling env mk f round msgs st hc]
      simp [List.countP_cons, Event.isDepthInc, Event.isDepthDec]
    · have hlt := lt_of_not_le hc
      cases henv : env round with
      | noReader =>
        rw [chatAux_succ_noReader env mk f round msgs st hlt henv]
        simp [List.countP_cons, Event.isDepthInc, Event.isDepthDec]
      | throwErr chunks e aborted =>
        rw [chatAux_succ_throwErr env mk f round msgs st chunks e aborted hlt henv]
        simp [List.countP_append, List.countP_cons,
          countP_map_progress Event.isDepthInc chunks (fun c => rfl),
          countP_map_progress Event.isDepthDec chunks (fun c => rfl),
          Event.isDepthInc, Event.isDepthDec]
      | ok r toolResult =>
        cases htool : r.tool with
        | none =>
          rw [chatAux_succ_ok_noTool env mk f round msgs st r toolResult hlt henv htool]
          simp [List.countP_append, List.countP_cons,
            countP_map_progress Event.isDepthInc r.chunks (fun c => rfl),
            countP_map_progress Event.isDepthDec r.chunks (fun c => rfl),
            Event.isDepthInc, Event.isDepthDec]
        | some t =>
          rw [chatAux_succ_ok_tool env mk f round msgs st r toolResult t hlt henv htool]
          simp [List.countP_append, List.countP_cons,
            countP_map_progress Event.isDepthInc r.chunks (fun c => rfl),
            countP_map_progress Event.isDepthDec r.chunks (fun c => rfl),
            Event.isDepthInc, Event.isDepthDec, ih]

theorem chatAux_completions_one (env : Nat → RoundOutcome)
    (mk : PendingTool → String → List String)
    (hnr : ∀ n, (env n).isNoReader = false) :
    ∀ fuel round msgs st,
      MAX_RECURSION_DEPTH + 1 ≤ fuel + st.currentRecursionDepth →
      st.currentRecursionDepth ≤ MAX_RECURSION_DEPTH →
      ((chatAux env mk fuel round msgs st).1).countP Event.isComplete = 1 := by
  intro fuel
  induction fuel with
  | zero => intro round msgs st hfuel hd; omega
  | succ f ih =>
    intro round msgs st hfuel hd
    by_cases hc : MAX_RECURSION_DEPTH ≤ (resetIfTop st).currentRecursionDepth
    · rw [chatAux_succ_ceiling env mk f round msgs st hc]
      simp [List.countP_cons, Event.isComplete]
    · have hlt := lt_of_not_le hc
      cases henv : env round with
      | noReader =>
        have := hnr round
        rw [henv] at this
        simp [RoundOutcome.isNoReader] at this
      | throwErr chunks e aborted =>
        rw [chatAux_succ_throwErr env mk f round msgs st chunks e aborted hlt henv]
        simp [List.countP_append, List.countP_cons, List.countP_map,
          Function.comp, Event.isComplete]
      | ok r toolResult =>
        cases htool : r.tool with
        | none =>
          rw [chatAux_succ_ok_noTool env mk f round msgs st r toolResult hlt henv htool]
          simp [List.countP_append, List.countP_cons, List.countP_map,
            Function.comp, Event.isComplete]
        | some t =>
          rw [chatAux_succ_ok_tool env mk f round msgs st r toolResult t hlt henv htool]
          rw [resetIfTop_depth] at hlt
          have hinner := ih (round + 1) (msgs ++ mk t toolResult)
            { currentRecursionDepth := (resetIfTop st).currentRecursionDepth + 1
              inputTokens := (resetIfTop st).inputTokens + r.inputTokens
              outputTokens := (resetIfTop st).outputTokens + r.outputTokens
              toolCallsWithResponses := (resetIfTop st).toolCallsWithResponses ++
                [{ name := t.name, args := t.args, response := toolResult }] }
            (by simp only [resetIfTop_depth]; omega)
            (by simp only [resetIfTop_depth]; omega)
          simp [List.countP_append, List.countP_cons, List.countP_map,
            Function.comp, Event.isComplete, hinner]

/-! ### Chains of tool rounds followed by a terminal round -/

/-- One non-terminal round of a chain: a read result `rr` whose pending tool
is `pt`, together with the value the tool host returned for it. -/
structure ToolStep where
  pt : PendingTool
  rr : ReadResult
  toolResult : String
deriving DecidableEq, Repr

/-- The `IToolCall` record pushed onto `toolCallsWithResponses` for a step. -/
def stepToolCall (s : ToolStep) : ToolCall :=
  { name := s.pt.name, args := s.pt.args, response := s.toolResult }

/-- The environment serves the given tool steps at consecutive rounds
starting at `round`, each read yielding a pending tool call. -/
def envChain (env : Nat → RoundOutcome) : Nat → List ToolStep → Bool
  | _, [] => true
  | round, s :: rest =>
    decide (env round = .ok s.rr s.toolResult) &&
      decide (s.rr.tool = some s.pt) && envChain env (round + 1) rest

theorem getCompletions_append (a b : List Event) :
    getCompletions (a ++ b) = getCompletions a ++ getCompletions b := by
  simp [getCompletions]

theorem getCompletions_map_progress (l : List String) :
    getCompletions (l.map .progress) = [] := by
  induction l with
  | nil => rfl
  | cons a l ih => simp [getCompletions, List.filterMap_cons, ih]

theorem getCompletions_nil : getCompletions [] = [] := rfl

theorem getCompletions_cons_enter (l : List Event) :
    getCompletions (.enter :: l) = getCompletions l := by
  simp [getCompletions, List.filterMap_cons]

theorem getCompletions_cons_depthInc (l : List Event) :
    getCompletions (.depthInc :: l) = getCompletions l := by
  simp [getCompletions, List.filterMap_cons]

theorem getCompletions_cons_depthDec (l : List Event) :
    getCompletions (.depthDec :: l) = getCompletions l := by
  simp [getCompletions, List.filterMap_cons]

theorem getCompletions_cons_request (l : List Event) :
    getCompletions (.request :: l) = getCompletions l := by
  simp [getCompletions, List.filterMap_cons]

theorem getCompletions_cons_progress (c : String) (l : List Event) :
    getCompletions (.progress c :: l) = getCompletions l := by
  simp [getCompletions, List.filterMap_cons]

theorem getCompletions_cons_errorCb (e : ThrownError) (b : Bool) (l : List Event) :
    getCompletions (.errorCb e b :: l) = getCompletions l := by
  simp [getCompletions, List.filterMap_cons]

theorem getCompletions_cons_callTool (req : CallToolRequest) (l : List Event) :
    getCompletions (.callTool req :: l) = getCompletions l := by
  simp [getCompletions, List.filterMap_cons]

theorem getCompletions_cons_complete (o : ChatOutcome) (l : List Event) :
    getCompletions (.complete o :: l) = o :: getCompletions l := by
  simp [getCompletions, List.filterMap_cons]

/-- A chain of `steps.length` tool round-trips followed by a terminal
round-trip: the number of network requests, the single completion payload
(ordered tool calls, token sums, terminal error), and the final instance
state (token counters reset, depth restored, tool-call list retained). -/
theorem chatAux_chain (env : Nat → RoundOutcome)
    (mk : PendingTool → String → List String) :
    ∀ (steps : List ToolStep) (final : ReadResult) (ftr : String)
      (fuel round : Nat) (msgs : List String) (st : SvcState),
      steps.length + 1 ≤ fuel →
      st.currentRecursionDepth + steps.length < MAX_RECURSION_DEPTH →
      envChain env round steps = true →
      env (round + steps.length) = .ok final ftr →
      final.tool = none →
      ((chatAux env mk fuel round msgs st).1).countP Event.isRequest = steps.length + 1 ∧
      getCompletions (chatAux env mk fuel round msgs st).1 =
        [{ content := String.join final.chunks
           toolCalls := (resetIfTop st).toolCallsWithResponses ++
             steps.map stepToolCall ++ final.toolCalls.getD []
           inputTokens := (resetIfTop st).inputTokens +
             (steps.map (fun s => s.rr.inputTokens)).sum + final.inputTokens
           outputTokens := (resetIfTop st).outputTokens +
             (steps.map (fun s => s.rr.outputTokens)).sum + final.outputTokens
           error := final.error }] ∧
      (chatAux env mk fuel round msgs st).2 =
        { currentRecursionDepth := st.currentRecursionDepth
          inputTokens := 0
          outputTokens := 0
          toolCallsWithResponses := (resetIfTop st).toolCallsWithResponses ++
            steps.map stepToolCall } := by
  intro steps
  induction steps with
  | nil =>
    intro final ftr fuel round msgs st hfuel hdepth _ henv hfin
    obtain ⟨f, rfl⟩ : ∃ f, fuel = f + 1 := ⟨fuel - 1, by omega⟩
    simp only [List.length_nil, Nat.add_zero] at henv hdepth
    have hlt : (resetIfTop st).currentRecursionDepth < MAX_RECURSION_DEPTH := by
      rw [resetIfTop_depth]; omega
    rw [chatAux_succ_ok_noTool env mk f round msgs st final ftr hlt henv hfin]
    refine ⟨?_, ?_, ?_⟩
    · simp [List.countP_append, List.countP_cons,
        countP_map_progress Event.isRequest final.chunks (fun c => rfl),
        Event.isRequest]
    · simp [getCompletions_append, getCompletions_map_progress, getCompletions,
        List.filterMap_cons]
    · simp [resetIfTop_depth]
  | cons s rest ih =>
    intro final ftr fuel round msgs st hfuel hdepth hchain henv hfin
    obtain ⟨f, rfl⟩ : ∃ f, fuel = f + 1 := ⟨fuel - 1, by omega⟩
    simp only [envChain, Bool.and_eq_true, decide_eq_true_eq] at hchain
    obtain ⟨⟨henv0, htool0⟩, hchainRest⟩ := hchain
    have hlt : (resetIfTop st).currentRecursionDepth < MAX_RECURSION_DEPTH := by
      rw [resetIfTop_depth]; simp only [List.length_cons] at hdepth; omega
    rw [chatAux_succ_ok_tool env mk f round msgs st s.rr s.toolResult s.pt hlt henv0 htool0]
    set S3 : SvcState :=
      { currentRecursionDepth := (resetIfTop st).currentRecursionDepth + 1
        inputTokens := (resetIfTop st).inputTokens + s.rr.inputTokens
        outputTokens := (resetIfTop st).outputTokens + s.rr.outputTokens
        toolCallsWithResponses := (resetIfTop st).toolCallsWithResponses ++
          [{ name := s.pt.name, args := s.pt.args, response := s.toolResult }] } with hS3
    have hS3depth : S3.currentRecursionDepth = st.currentRecursionDepth + 1 := by
      rw [hS3]; simp [resetIfTop_depth]
    have hres3 : resetIfTop S3 = S3 := resetIfTop_of_ne S3 (by rw [hS3depth]; omega)
    have henv' : env (round + 1 + rest.length) = .ok final ftr := by
      have : round + 1 + rest.length = round + (s :: rest).length := by
        simp [List.length_cons]; omega
      rwa [this]
    have hinner := ih final ftr f (round + 1) (msgs ++ mk s.pt s.toolResult) S3
      (by simp only [List.length_cons] at hfuel; omega)
      (by rw [hS3depth]; simp only [List.length_cons] at hdepth; omega)
      hchainRest henv' hfin
    obtain ⟨hcount, hcomp, hstate⟩ := hinner
    refine ⟨?_, ?_, ?_⟩
    · simp [List.countP_append, List.countP_cons,
        countP_map_progress Event.isRequest s.rr.chunks (fun c => rfl),
        Event.isRequest, hcount, List.length_cons]
    · rw [hres3] at hcomp
      simp only [getCompletions_append, getCompletions_map_progress,
        getCompletions_cons_enter, getCompletions_cons_depthInc,
        getCompletions_cons_request, getCompletions_cons_callTool,
        getCompletions_cons_depthDec, getCompletions_nil,
        List.nil_append, List.append_nil]
      rw [hcomp]
      simp only [hS3, stepToolCall, List.map_cons, List.sum_cons, List.cons.injEq,
        ChatOutcome.mk.injEq, and_true, true_and, List.append_assoc,
        List.cons_append, List.nil_append, Nat.add_assoc]
    · rw [hres3] at hstate
      rw [hstate]
      simp only [hS3, stepToolCall, List.map_cons, resetIfTop_depth,
        SvcState.mk.injEq, List.append_assoc, List.cons_append, List.nil_append,
        Nat.add_sub_cancel]

/-- When every round the environment serves contains a pending tool call,
a call entered at depth `d ≤ MAX_RECURSION_DEPTH` performs exactly
`MAX_RECURSION_DEPTH - d` network requests, re-enters `chat`
`MAX_RECURSION_DEPTH + 1 - d` times, and emits exactly one completion — the
ceiling payload with error code 500 and the descriptive message. -/
theorem chatAux_allTool (env : Nat → RoundOutcome)
    (mk : PendingTool → String → List String)
    (hT : ∀ n, (env n).hasPendingTool = true) :
    ∀ fuel round msgs st,
      MAX_RECURSION_DEPTH + 1 ≤ fuel + st.currentRecursionDepth →
      st.currentRecursionDepth ≤ MAX_RECURSION_DEPTH →
      ((chatAux env mk fuel round msgs st).1).countP Event.isRequest =
        MAX_RECURSION_DEPTH - st.currentRecursionDepth ∧
      ((chatAux env mk fuel round msgs st).1).countP Event.isEnter =
        MAX_RECURSION_DEPTH + 1 - st.currentRecursionDepth ∧
      ∃ o, getCompletions (chatAux env mk fuel round msgs st).1 = [o] ∧
        o.error = some { code := 500, message := maxDepthMessage } ∧
        o.content = "Maximum recursion depth reached for tool calls." := by
  intro fuel
  induction fuel with
  | zero => intro round msgs st hfuel hd; omega
  | succ f ih =>
    intro round msgs st hfuel hd
    by_cases hc : MAX_RECURSION_DEPTH ≤ (resetIfTop st).currentRecursionDepth
    · rw [chatAux_succ_ceiling env mk f round msgs st hc]
      rw [resetIfTop_depth] at hc
      have hde : st.currentRecursionDepth = MAX_RECURSION_DEPTH := le_antisymm hd hc
      refine ⟨?_, ?_, ceilingOutcome (resetIfTop st), ?_, rfl, rfl⟩
      · simp [List.countP_cons, Event.isRequest, hde]
      · simp [List.countP_cons, Event.isEnter, hde]
      · simp [getCompletions_cons_enter, getCompletions_cons_complete,
          getCompletions_nil]
    · have hlt := lt_of_not_le hc
      have hTr := hT round
      cases henv : env round with
      | noReader => rw [henv] at hTr; simp [RoundOutcome.hasPendingTool] at hTr
      | throwErr chunks e aborted =>
        rw [henv] at hTr; simp [RoundOutcome.hasPendingTool] at hTr
      | ok r toolResult =>
        rw [henv] at hTr
        simp only [RoundOutcome.hasPendingTool, Option.isSome_iff_exists] at hTr
        obtain ⟨t, htool⟩ := hTr
        rw [chatAux_succ_ok_tool env mk f round msgs st r toolResult t hlt henv htool]
        rw [resetIfTop_depth] at hlt
        have hinner := ih (round + 1) (msgs ++ mk t toolResult)
          { currentRecursionDepth := (resetIfTop st).currentRecursionDepth + 1
            inputTokens := (resetIfTop st).inputTokens + r.inputTokens
            outputTokens := (resetIfTop st).outputTokens + r.outputTokens
            toolCallsWithResponses := (resetIfTop st).toolCallsWithResponses ++
              [{ name := t.name, args := t.args, response := toolResult }] }
          (by simp only [resetIfTop_depth]; omega)
          (by simp only [resetIfTop_depth]; omega)
        obtain ⟨hreq, hent, o, hcomp, herr, hcont⟩ := hinner
        have hrd := resetIfTop_depth st
        refine ⟨?_, ?_, o, ?_, herr, hcont⟩
        · simp [List.countP_append, List.countP_cons,
            countP_map_progress Event.isRequest r.chunks (fun c => rfl),
            Event.isRequest, hreq]
          omega
        · simp [List.countP_append, List.countP_cons,
            countP_map_progress Event.isEnter r.chunks (fun c => rfl),
            Event.isEnter, hent]
          omega
        · simp only [getCompletions_append, getCompletions_map_progress,
            getCompletions_cons_enter, getCompletions_cons_depthInc,
            getCompletions_cons_request, getCompletions_cons_callTool,
            getCompletions_cons_depthDec, getCompletions_nil,
            List.nil_append, List.append_nil]
          exact hcomp

/-! ### Provider readiness (`NextCharService.isReady`) -/

/-- The `apiSettings` fields the readiness check consults.  A missing or
empty setting is modelled as the empty string (both are falsy in JS). -/
structure ApiSettings where
  base : String
  key : String
  model : String
deriving DecidableEq, Repr

/-- `NextCharService.isReady`: for each of `model`, `base`, `key`, if the
provider's `apiSchema` lists the field and the corresponding setting is
falsy, return `false`; otherwise return `true`. -/
def isReady (apiSchema : List String) (api : ApiSettings) : Bool :=
  if apiSchema.contains "model" && api.model == "" then false
  else if apiSchema.contains "base" && api.base == "" then false
  else if apiSchema.contains "key" && api.key == "" then false
  else true

/-! ### Chat store message processing (`useChatStore.ts`) -/

/-- A JavaScript value in the `toolCalls` position of a message record:
null, undefined, a string (the database representation), an actual array of
tool calls, or any other value. -/
inductive JVal where
  | null
  | undef
  | str (s : String)
  | arr (l : List ToolCall)
  | other
deriving DecidableEq, Repr

/-- JavaScript truthiness of a `JVal` (`null`, `undefined` and the empty
string are falsy; arrays and other objects are truthy). -/
def jvTruthy : JVal → Bool
  | .null => false
  | .undef => false
  | .str s => s ≠ ""
  | .arr _ => true
  | .other => true

/-- A raw message record (`IChatMessage`) as read from the database or
passed around: only the fields `processMessage` inspects are modelled. -/
structure DbMessage where
  id : String
  toolCalls : JVal
deriving DecidableEq, Repr

/-- A processed message (`IChatMessageInternal`) as exposed to consumers. -/
structure InternalMessage where
  id : String
  toolCalls : JVal
deriving DecidableEq, Repr

/-- `processMessage` from `useChatStore.ts`.  `parse` models `JSON.parse`
(`none` models a thrown parse error).  A null/undefined input message yields
the default record with an empty array; a string field is parsed and kept
only if it parses to an array; an array field is kept; anything else (null,
undefined, unparseable, parsed non-array, other type) yields the empty
array.  Every exception path is caught in the source, so the model is a
total function. -/
def processMessage (parse : String → Option JVal) :
    Option DbMessage → InternalMessage
  | none => { id := "", toolCalls := .arr [] }
  | some m =>
    { id := m.id
      toolCalls :=
        match m.toolCalls with
        | .null => .arr []
        | .undef => .arr []
        | .str s =>
          match parse s with
          | some (.arr l) => .arr l
          | _ => .arr []
        | .arr l => .arr l
        | .other => .arr [] }

/-- The message `createMessage` stores and then processes: `toolCalls` is
`JSON.stringify(message.toolCalls)` when the field is truthy and the literal
string of an empty array otherwise, and the stored record is passed through
`processMessage` before being put into the store state.  `stringify` models
`JSON.stringify`. -/
def createMessageProcessed (parse : String → Option JVal)
    (stringify : List ToolCall → String) (id : String)
    (toolCalls : Option (List ToolCall)) : InternalMessage :=
  processMessage parse (some
    { id := id
      toolCalls := .str (match toolCalls with
        | some l => stringify l
        | none => "[]") })

/-- `fetchMessages`' post-processing of the rows returned by the database
query: a row with a truthy `toolCalls` goes through `processMessage`, any
other row gets the empty array. -/
def fetchProcessMessages (parse : String → Option JVal)
    (rows : List DbMessage) : List InternalMessage :=
  rows.map fun m =>
    if jvTruthy m.toolCalls then processMessage parse (some m)
    else { id := m.id, toolCalls := .arr [] }

/-! ### Claim theorems -/

/-- A `makeToolMessages` strategy that appends no messages (sample). -/
def mkNoMsgs : PendingTool → String → List String := fun _ _ => []

/-- A fresh orchestrator state: depth 0, zero counters, no tool calls. -/
def stFresh : SvcState :=
  { currentRecursionDepth := 0, inputTokens := 0, outputTokens := 0,
    toolCallsWithResponses := [] }

/-- A terminal read result (no pending tool), with a finalized tool call. -/
def readFinal : ReadResult :=
  { chunks := ["Hi"], inputTokens := 3, outputTokens := 4, tool := none,
    toolCalls := some [{ name := "w--z", args := "zargs", response := "zdone" }],
    error := none }

/-- A read result demanding the tool `c--t`. -/
def readTool : ReadResult :=
  { chunks := [], inputTokens := 1, outputTokens := 2,
    tool := some { name := "c--t", args := "targs" }, toolCalls := none,
    error := none }

/-- An environment whose every round demands a tool call. -/
def envAllTool : Nat → RoundOutcome := fun _ => .ok readTool "tres"

/-- An environment whose every round terminates without a pending tool. -/
def envOneShot : Nat → RoundOutcome := fun _ => .ok readFinal "unused"

theorem chat_eq_chatAux (env : Nat → RoundOutcome)
    (mk : PendingTool → String → List String) (round : Nat)
    (msgs : List String) (st : SvcState) (h0 : st.currentRecursionDepth = 0) :
    chat env mk round msgs st =
      chatAux env mk (MAX_RECURSION_DEPTH + 1) round msgs st := by
  rw [chat, h0, Nat.sub_zero]

/-- **C1** (amended).  On the normal, exception, depth-ceiling and
cancellation exit paths a top-level `chat` invocation emits exactly one
completion payload: whenever no round takes the missing-reader branch, the
completion count is exactly 1 (first conjunct).  For a top-level round-trip
cancelled by `abort()` (the request/read throws with `signal.aborted`), the
error callback receives `aborted = true` and the single completion carries
the partial text accumulated before cancellation (second conjunct).  On the
missing-reader exit path, however, no completion is emitted (see the
counterexample). -/
theorem C1_amended :
    (∀ (env : Nat → RoundOutcome) (mk : PendingTool → String → List String)
       (round : Nat) (msgs : List String) (st : SvcState),
       st.currentRecursionDepth = 0 →
       (∀ n, (env n).isNoReader = false) →
       ((chat env mk round msgs st).1).countP Event.isComplete = 1) ∧
    (∀ (env : Nat → RoundOutcome) (mk : PendingTool → String → List String)
       (round : Nat) (msgs : List String) (st : SvcState)
       (chunks : List String) (e : ThrownError),
       st.currentRecursionDepth = 0 →
       env round = .throwErr chunks e true →
       (chat env mk round msgs st).1 =
         [.enter, .depthInc, .request] ++ chunks.map .progress ++
           [.errorCb e true,
            .complete { content := String.join chunks
                        toolCalls := []
                        inputTokens := st.inputTokens
                        outputTokens := st.outputTokens
                        error := some { code := jsErrCode e.code
                                        message := e.message } },
            .depthDec]) := by
  constructor
  · intro env mk round msgs st h0 hnr
    rw [chat_eq_chatAux env mk round msgs st h0]
    exact chatAux_completions_one env mk hnr (MAX_RECURSION_DEPTH + 1) round msgs st
      (by omega) (by rw [h0]; omega)
  · intro env mk round msgs st chunks e h0 henv
    rw [chat_eq_chatAux env mk round msgs st h0]
    rw [chatAux_succ_throwErr env mk MAX_RECURSION_DEPTH round msgs st chunks e true
      (by rw [resetIfTop_depth, h0]; norm_num [MAX_RECURSION_DEPTH]) henv]
    rw [resetIfTop_of_zero st h0]

/-- **C1** counterexample: a top-level invocation whose round hits the
missing-reader branch (`response.body` has no reader) emits **zero**
completion payloads — only the error callback fires — contradicting
"exactly one `ChatOutcome` is emitted on every exit path". -/
theorem C1_counterexample :
    ((chat (fun _ => RoundOutcome.noReader) mkNoMsgs 0 [] stFresh).1).countP
      Event.isComplete = 0 := by decide

/-- **C1** witness. -/
theorem C1_witness :
    ((chat envOneShot mkNoMsgs 0 [] stFresh).1).countP Event.isComplete = 1 ∧
    (chat (fun _ => RoundOutcome.throwErr ["pa"] ⟨none, "AbortError"⟩ true)
        mkNoMsgs 0 [] stFresh).1 =
      [.enter, .depthInc, .request] ++ (["pa"].map .progress) ++
        [.errorCb ⟨none, "AbortError"⟩ true,
         .complete { content := String.join ["pa"]
                     toolCalls := []
                     inputTokens := stFresh.inputTokens
                     outputTokens := stFresh.outputTokens
                     error := some { code := jsErrCode (none : Option Nat)
                                     message := "AbortError" } },
         .depthDec] :=
  ⟨C1_amended.1 envOneShot mkNoMsgs 0 [] stFresh rfl (fun _ => rfl),
   C1_amended.2 _ mkNoMsgs 0 [] stFresh ["pa"] ⟨none, "AbortError"⟩ rfl rfl⟩

/-- **C2**.  When every round's parse result contains a pending tool call, a
top-level `chat` terminates with exactly one completion whose `error.code`
is 500 and whose message is the descriptive depth-ceiling message; the
network request function is invoked exactly `MAX_RECURSION_DEPTH` times
(hence at most the ceiling), while `chat` is entered `MAX_RECURSION_DEPTH + 1`
times — the ceiling-hitting entry issues no request. -/
theorem C2_depth_ceiling :
    ∀ (env : Nat → RoundOutcome) (mk : PendingTool → String → List String)
      (round : Nat) (msgs : List String) (st : SvcState),
      st.currentRecursionDepth = 0 →
      (∀ n, (env n).hasPendingTool = true) →
      ((chat env mk round msgs st).1).countP Event.isRequest = MAX_RECURSION_DEPTH ∧
      ((chat env mk round msgs st).1).countP Event.isEnter = MAX_RECURSION_DEPTH + 1 ∧
      ∃ o, getCompletions (chat env mk round msgs st).1 = [o] ∧
        o.error = some { code := 500, message := maxDepthMessage } ∧
        o.content = "Maximum recursion depth reached for tool calls." := by
  intro env mk round msgs st h0 hT
  rw [chat_eq_chatAux env mk round msgs st h0]
  have h := chatAux_allTool env mk hT (MAX_RECURSION_DEPTH + 1) round msgs st
    (by omega) (by rw [h0]; omega)
  rw [h0] at h
  simpa using h

/-- **C2** witness. -/
theorem C2_witness :
    ((chat envAllTool mkNoMsgs 0 [] stFresh).1).countP Event.isRequest =
      MAX_RECURSION_DEPTH ∧
    ((chat envAllTool mkNoMsgs 0 [] stFresh).1).countP Event.isEnter =
      MAX_RECURSION_DEPTH + 1 ∧
    ∃ o, getCompletions (chat envAllTool mkNoMsgs 0 [] stFresh).1 = [o] ∧
      o.error = some { code := 500, message := maxDepthMessage } ∧
      o.content = "Maximum recursion depth reached for tool calls." :=
  C2_depth_ceiling envAllTool mkNoMsgs 0 [] stFresh rfl (fun _ => rfl)

/-- **C8** (amended).  The depth counter is incremented and decremented in
balance — every entry that increments it (i.e. every entry that passes the
ceiling check) decrements it exactly once on all of its exit paths — and a
ceiling-hitting entry neither increments nor decrements it; consequently
after any `chat` invocation the depth counter equals its value at entry.
The original claim's "decremented exactly once per entry" fails for the
ceiling entry (see the counterexample). -/
theorem C8_amended :
    ∀ (env : Nat → RoundOutcome) (mk : PendingTool → String → List String)
      (round : Nat) (msgs : List String) (st : SvcState),
      ((chat env mk round msgs st).1).countP Event.isDepthInc =
        ((chat env mk round msgs st).1).countP Event.isDepthDec ∧
      ((chat env mk round msgs st).2).currentRecursionDepth =
        st.currentRecursionDepth := by
  intro env mk round msgs st
  rw [chat]
  exact ⟨chatAux_depth_balance env mk _ round msgs st,
    chatAux_final_depth env mk _ round msgs st⟩

/-- **C8** counterexample: in a ceiling-hitting chain the orchestrator is
entered 11 times but the depth counter is decremented only 10 times — the
ceiling entry returns before the increment and the `finally` decrement — so
"the counter is decremented exactly once per entry" is false (the net depth
is nevertheless preserved, because that entry does not increment either). -/
theorem C8_counterexample :
    ((chat envAllTool mkNoMsgs 0 [] stFresh).1).countP Event.isEnter = 11 ∧
    ((chat envAllTool mkNoMsgs 0 [] stFresh).1).countP Event.isDepthDec = 10 := by
  decide

/-- **C4** (amended).  For a top-level chain of `N` round-trips the
completion payload reports the starting counters plus `sum(a_i)` and
`sum(b_i)` (so exactly the sums when the instance starts from zero), and the
counters are reset to zero after the outcome is emitted on the
normal-completion path (first conjunct) and on the exception path (second
conjunct).  On the depth-ceiling path the outcome is emitted but the
counters are **not** reset (see the counterexample), so a following
top-level call starts from zero only when the previous one did not
terminate via the ceiling. -/
theorem C4_amended :
    (∀ (env : Nat → RoundOutcome) (mk : PendingTool → String → List String)
       (steps : List ToolStep) (final : ReadResult) (ftr : String)
       (round : Nat) (msgs : List String) (st : SvcState),
       st.currentRecursionDepth = 0 →
       steps.length < MAX_RECURSION_DEPTH →
       envChain env round steps = true →
       env (round + steps.length) = .ok final ftr →
       final.tool = none →
       (∃ o, getCompletions (chat env mk round msgs st).1 = [o] ∧
          o.inputTokens = st.inputTokens +
            (steps.map (fun s => s.rr.inputTokens)).sum + final.inputTokens ∧
          o.outputTokens = st.outputTokens +
            (steps.map (fun s => s.rr.outputTokens)).sum + final.outputTokens) ∧
       ((chat env mk round msgs st).2).inputTokens = 0 ∧
       ((chat env mk round msgs st).2).outputTokens = 0) ∧
    (∀ (env : Nat → RoundOutcome) (mk : PendingTool → String → List String)
       (round : Nat) (msgs : List String) (st : SvcState)
       (chunks : List String) (e : ThrownError) (aborted : Bool),
       st.currentRecursionDepth = 0 →
       env round = .throwErr chunks e aborted →
       ((chat env mk round msgs st).2).inputTokens = 0 ∧
       ((chat env mk round msgs st).2).outputTokens = 0) := by
  constructor
  · intro env mk steps final ftr round msgs st h0 hlen hchain henv hfin
    rw [chat_eq_chatAux env mk round msgs st h0]
    have h := chatAux_chain env mk steps final ftr (MAX_RECURSION_DEPTH + 1)
      round msgs st (by omega) (by omega) hchain henv hfin
    obtain ⟨-, hcomp, hstate⟩ := h
    refine ⟨⟨_, hcomp, ?_, ?_⟩, ?_, ?_⟩
    · simp [resetIfTop_inputTokens]
    · simp [resetIfTop_outputTokens]
    · rw [hstate]
    · rw [hstate]
  · intro env mk round msgs st chunks e aborted h0 henv
    rw [chat_eq_chatAux env mk round msgs st h0]
    rw [chatAux_succ_throwErr env mk MAX_RECURSION_DEPTH round msgs st chunks e aborted
      (by rw [resetIfTop_depth, h0]; norm_num [MAX_RECURSION_DEPTH]) henv]
    exact ⟨rfl, rfl⟩

/-- **C4** counterexample: a top-level all-tool chain (each round reporting
`inputTokens = 1`, `outputTokens = 2`) emits its (ceiling) outcome, yet the
instance counters afterwards hold 10 and 20 instead of zero — the
depth-ceiling emitting path does not reset them, so an immediately following
top-level call would start accumulating from 10/20. -/
theorem C4_counterexample :
    ((chat envAllTool mkNoMsgs 0 [] stFresh).1).countP Event.isComplete = 1 ∧
    ((chat envAllTool mkNoMsgs 0 [] stFresh).2).inputTokens = 10 ∧
    ((chat envAllTool mkNoMsgs 0 [] stFresh).2).outputTokens = 20 := by
  decide

/-- A second tool read result (tool `c--u`), for two-step chains. -/
def readTool2 : ReadResult :=
  { chunks := ["mid"], inputTokens := 5, outputTokens := 6,
    tool := some { name := "c--u", args := "uargs" }, toolCalls := none,
    error := none }

/-- Step serving `c--t` with result `r1`. -/
def stepT1 : ToolStep :=
  { pt := { name := "c--t", args := "targs" }, rr := readTool, toolResult := "r1" }

/-- Step serving `c--u` with result `r2`. -/
def stepT2 : ToolStep :=
  { pt := { name := "c--u", args := "uargs" }, rr := readTool2, toolResult := "r2" }

/-- An environment serving tool rounds `c--t`, then `c--u`, then a terminal
round. -/
def envT1T2 : Nat → RoundOutcome := fun n =>
  if n = 0 then .ok readTool "r1"
  else if n = 1 then .ok readTool2 "r2"
  else .ok readFinal "unused"

/-- **C4** witness. -/
theorem C4_witness :
    ((∃ o, getCompletions (chat envT1T2 mkNoMsgs 0 [] stFresh).1 = [o] ∧
        o.inputTokens = stFresh.inputTokens +
          ([stepT1, stepT2].map (fun s => s.rr.inputTokens)).sum + readFinal.inputTokens ∧
        o.outputTokens = stFresh.outputTokens +
          ([stepT1, stepT2].map (fun s => s.rr.outputTokens)).sum + readFinal.outputTokens) ∧
      ((chat envT1T2 mkNoMsgs 0 [] stFresh).2).inputTokens = 0 ∧
      ((chat envT1T2 mkNoMsgs 0 [] stFresh).2).outputTokens = 0) ∧
    (((chat (fun _ => RoundOutcome.throwErr [] ⟨some 7, "boom"⟩ false) mkNoMsgs 0 []
        { currentRecursionDepth := 0, inputTokens := 3, outputTokens := 4,
          toolCallsWithResponses := [] }).2).inputTokens = 0 ∧
      ((chat (fun _ => RoundOutcome.throwErr [] ⟨some 7, "boom"⟩ false) mkNoMsgs 0 []
        { currentRecursionDepth := 0, inputTokens := 3, outputTokens := 4,
          toolCallsWithResponses := [] }).2).outputTokens = 0) :=
  ⟨C4_amended.1 envT1T2 mkNoMsgs [stepT1, stepT2] readFinal "unused" 0 [] stFresh
      rfl (by decide) (by decide) (by decide) (by decide),
   C4_amended.2 _ mkNoMsgs 0 [] _ [] ⟨some 7, "boom"⟩ false rfl rfl⟩

/-- **C5**.  For a top-level chain that issues its pending tool calls in
request order and then terminates, the completion payload's tool-call list
is exactly the per-round finalized calls in request order followed by the
terminal round's already-finalized calls — the accumulated list is merged
with `readResult.toolCalls` only at termination. -/
theorem C5_tool_call_order :
    ∀ (env : Nat → RoundOutcome) (mk : PendingTool → String → List String)
      (steps : List ToolStep) (final : ReadResult) (ftr : String)
      (round : Nat) (msgs : List String) (st : SvcState),
      st.currentRecursionDepth = 0 →
      steps.length < MAX_RECURSION_DEPTH →
      envChain env round steps = true →
      env (round + steps.length) = .ok final ftr →
      final.tool = none →
      ∃ o, getCompletions (chat env mk round msgs st).1 = [o] ∧
        o.toolCalls = steps.map stepToolCall ++ final.toolCalls.getD [] := by
  intro env mk steps final ftr round msgs st h0 hlen hchain henv hfin
  rw [chat_eq_chatAux env mk round msgs st h0]
  have h := chatAux_chain env mk steps final ftr (MAX_RECURSION_DEPTH + 1)
    round msgs st (by omega) (by omega) hchain henv hfin
  obtain ⟨-, hcomp, -⟩ := h
  refine ⟨_, hcomp, ?_⟩
  rw [resetIfTop_of_zero st h0]
  rfl

/-- **C5** witness: tool calls `c--t` (finalized in round 1) and `c--u`
(finalized in round 2) appear in the final payload in request order,
followed by the terminal round's finalized call `w--z`. -/
theorem C5_witness :
    ∃ o, getCompletions (chat envT1T2 mkNoMsgs 0 [] stFresh).1 = [o] ∧
      o.toolCalls = [stepT1, stepT2].map stepToolCall ++ readFinal.toolCalls.getD [] :=
  C5_tool_call_order envT1T2 mkNoMsgs [stepT1, stepT2] readFinal "unused" 0 []
    stFresh rfl (by decide) (by decide) (by decide) (by decide)

/-- **C6**.  When a round's pending tool call is executed and the tool host
returns a failure value on its normal result channel (`failRes` — the source
stores whatever `callTool` resolves to), the failure is stored as that tool
call's `response` in the accumulated list, the conversation is extended with
the tool-result messages `mk t failRes`, and the chain proceeds to a
subsequent round-trip (second request) rather than terminating with an
orchestrator-level error: the terminal payload's `error` is exactly the
terminal round's parser error (`r2.error`), not an orchestrator error, and
the failed call appears in the payload with the failure as its response. -/
theorem C6_tool_failure_continues :
    ∀ (env : Nat → RoundOutcome) (mk : PendingTool → String → List String)
      (round : Nat) (msgs : List String) (st : SvcState)
      (r : ReadResult) (failRes : String) (t : PendingTool)
      (r2 : ReadResult) (tr2 : String),
      st.currentRecursionDepth = 0 →
      env round = .ok r failRes →
      r.tool = some t →
      env (round + 1) = .ok r2 tr2 →
      r2.tool = none →
      (chat env mk round msgs st).1 =
        [.enter, .depthInc, .request] ++ r.chunks.map .progress ++
          [.callTool (mkCallToolRequest ((splitDashDash t.name).headD "")
             ((splitDashDash t.name).get? 1) t.args)] ++
          (chatAux env mk MAX_RECURSION_DEPTH (round + 1) (msgs ++ mk t failRes)
            { currentRecursionDepth := 1
              inputTokens := st.inputTokens + r.inputTokens
              outputTokens := st.outputTokens + r.outputTokens
              toolCallsWithResponses :=
                [{ name := t.name, args := t.args, response := failRes }] }).1 ++
          [.depthDec] ∧
      ((chat env mk round msgs st).1).countP Event.isRequest = 2 ∧
      ∃ o, getCompletions (chat env mk round msgs st).1 = [o] ∧
        o.toolCalls =
          { name := t.name, args := t.args, response := failRes } ::
            r2.toolCalls.getD [] ∧
        o.error = r2.error := by
  intro env mk round msgs st r failRes t r2 tr2 h0 henv htool henv2 hfin
  have hlt : (resetIfTop st).currentRecursionDepth < MAX_RECURSION_DEPTH := by
    rw [resetIfTop_depth, h0]; norm_num [MAX_RECURSION_DEPTH]
  have hchain : envChain env round [{ pt := t, rr := r, toolResult := failRes }] = true := by
    simp [envChain, henv, htool]
  have henv2' : env (round + ([{ pt := t, rr := r, toolResult := failRes }] :
      List ToolStep).length) = .ok r2 tr2 := by
    simpa using henv2
  have h := chatAux_chain env mk [{ pt := t, rr := r, toolResult := failRes }]
    r2 tr2 (MAX_RECURSION_DEPTH + 1) round msgs st
    (by simp only [List.length_cons, List.length_nil, MAX_RECURSION_DEPTH]; omega)
    (by rw [h0]
        simp only [List.length_cons, List.length_nil, MAX_RECURSION_DEPTH]
        omega)
    hchain henv2' hfin
  obtain ⟨hcount, hcomp, -⟩ := h
  refine ⟨?_, ?_, ?_⟩
  · rw [chat_eq_chatAux env mk round msgs st h0]
    rw [chatAux_succ_ok_tool env mk MAX_RECURSION_DEPTH round msgs st r failRes t
      hlt henv htool]
    rw [resetIfTop_of_zero st h0]
    simp only [h0, Nat.zero_add, List.nil_append]
  · rw [chat_eq_chatAux env mk round msgs st h0]
    simpa using hcount
  · rw [chat_eq_chatAux env mk round msgs st h0]
    refine ⟨_, hcomp, ?_, rfl⟩
    rw [resetIfTop_of_zero st h0]
    rfl

/-- A tool round whose execution will fail. -/
def envFailThenDone : Nat → RoundOutcome := fun n =>
  if n = 0 then .ok readTool "Error: tool execution failed"
  else .ok readFinal "unused"

/-- **C6** witness. -/
theorem C6_witness :
    (chat envFailThenDone mkNoMsgs 0 [] stFresh).1 =
      [.enter, .depthInc, .request] ++ readTool.chunks.map .progress ++
        [.callTool (mkCallToolRequest ((splitDashDash "c--t").headD "")
           ((splitDashDash "c--t").get? 1) "targs")] ++
        (chatAux envFailThenDone mkNoMsgs MAX_RECURSION_DEPTH 1 ([] ++ mkNoMsgs
            { name := "c--t", args := "targs" } "Error: tool execution failed")
          { currentRecursionDepth := 1
            inputTokens := stFresh.inputTokens + readTool.inputTokens
            outputTokens := stFresh.outputTokens + readTool.outputTokens
            toolCallsWithResponses :=
              [{ name := "c--t", args := "targs",
                 response := "Error: tool execution failed" }] }).1 ++
        [.depthDec] ∧
    ((chat envFailThenDone mkNoMsgs 0 [] stFresh).1).countP Event.isRequest = 2 ∧
    ∃ o, getCompletions (chat envFailThenDone mkNoMsgs 0 [] stFresh).1 = [o] ∧
      o.toolCalls =
        { name := "c--t", args := "targs",
          response := "Error: tool execution failed" } ::
          readFinal.toolCalls.getD [] ∧
      o.error = readFinal.error :=
  C6_tool_failure_continues envFailThenDone mkNoMsgs 0 [] stFresh readTool
    "Error: tool execution failed" { name := "c--t", args := "targs" }
    readFinal "unused" rfl rfl rfl rfl rfl

/-- A round demanding the tool with qualified name `c--a--b`. -/
def readToolCAB : ReadResult :=
  { chunks := [], inputTokens := 0, outputTokens := 0,
    tool := some { name := "c--a--b", args := "A" }, toolCalls := none,
    error := none }

/-- Environment: one `c--a--b` tool round, then a terminal round. -/
def envCAB : Nat → RoundOutcome := fun n =>
  if n = 0 then .ok readToolCAB "res" else .ok readFinal "unused"

/-- **C7** counterexample: for the qualified name `c--a--b` the claim says
the Tool Host is invoked with `name = "a--b"` (the entire substring after
the first `--`); the code instead destructures
`tool.name.split('--')` — which splits on **every** occurrence — and passes
`name = "a"`, dropping `--b`.  In the run below no invocation with
`name = "a--b"` occurs, while exactly one with the truncated `name = "a"`
does. -/
theorem C7_counterexample :
    ((chat envCAB mkNoMsgs 0 [] stFresh).1).countP
      (fun e => e == Event.callTool (mkCallToolRequest "c" (some "a--b") "A")) = 0 ∧
    ((chat envCAB mkNoMsgs 0 [] stFresh).1).countP
      (fun e => e == Event.callTool (mkCallToolRequest "c" (some "a") "A")) = 1 := by
  decide

/-- **C7** (amended).  The qualified name is split on **every** occurrence
of `--`; the Tool Host is invoked with `client` = the segment before the
first `--` and `name` = the segment strictly between the first and second
`--` (so the whole remainder only when the tool-name part itself contains no
further `--`; text after a second `--` is dropped, and `name` is undefined
when there is no separator at all). -/
theorem C7_amended :
    (∀ (env : Nat → RoundOutcome) (mk : PendingTool → String → List String)
       (round : Nat) (msgs : List String) (st : SvcState)
       (r : ReadResult) (tr : String) (t : PendingTool),
       st.currentRecursionDepth = 0 →
       env round = .ok r tr →
       r.tool = some t →
       ∃ evs1 evs2, (chat env mk round msgs st).1 =
         evs1 ++ .callTool (mkCallToolRequest ((splitDashDash t.name).headD "")
           ((splitDashDash t.name).get? 1) t.args) :: evs2) ∧
    (splitDashDash "client--tool" = ["client", "tool"] ∧
     (splitDashDash "c--a--b").headD "" = "c" ∧
     (splitDashDash "c--a--b").get? 1 = some "a" ∧
     (splitDashDash "plain").get? 1 = none) := by
  constructor
  · intro env mk round msgs st r tr t h0 henv htool
    have hlt : (resetIfTop st).currentRecursionDepth < MAX_RECURSION_DEPTH := by
      rw [resetIfTop_depth, h0]; norm_num [MAX_RECURSION_DEPTH]
    rw [chat_eq_chatAux env mk round msgs st h0]
    rw [chatAux_succ_ok_tool env mk MAX_RECURSION_DEPTH round msgs st r tr t
      hlt henv htool]
    refine ⟨[.enter, .depthInc, .request] ++ r.chunks.map .progress,
      (chatAux env mk MAX_RECURSION_DEPTH (round + 1) (msgs ++ mk t tr)
        { currentRecursionDepth := (resetIfTop st).currentRecursionDepth + 1
          inputTokens := (resetIfTop st).inputTokens + r.inputTokens
          outputTokens := (resetIfTop st).outputTokens + r.outputTokens
          toolCallsWithResponses := (resetIfTop st).toolCallsWithResponses ++
            [{ name := t.name, args := t.args, response := tr }] }).1 ++
        [.depthDec], ?_⟩
    simp [List.append_assoc]
  · refine ⟨by decide, by decide, by decide, by decide⟩

/-- **C7** witness. -/
theorem C7_witness :
    ∃ evs1 evs2, (chat envCAB mkNoMsgs 0 [] stFresh).1 =
      evs1 ++ .callTool (mkCallToolRequest ((splitDashDash "c--a--b").headD "")
        ((splitDashDash "c--a--b").get? 1) "A") :: evs2 :=
  C7_amended.1 envCAB mkNoMsgs 0 [] stFresh readToolCAB "res"
    { name := "c--a--b", args := "A" } rfl rfl rfl

/-- Every non-ceiling entry issues at least one network request, whatever
the environment does. -/
theorem chatAux_request_pos (env : Nat → RoundOutcome)
    (mk : PendingTool → String → List String) (fuel round : Nat)
    (msgs : List String) (st : SvcState)
    (h : (resetIfTop st).currentRecursionDepth < MAX_RECURSION_DEPTH) :
    1 ≤ ((chatAux env mk (fuel + 1) round msgs st).1).countP Event.isRequest := by
  cases henv : env round with
  | noReader =>
    rw [chatAux_succ_noReader env mk fuel round msgs st h henv]
    simp [List.countP_cons, Event.isRequest]
  | throwErr chunks e aborted =>
    rw [chatAux_succ_throwErr env mk fuel round msgs st chunks e aborted h henv]
    simp [List.countP_append, List.countP_cons,
      countP_map_progress Event.isRequest chunks (fun c => rfl), Event.isRequest]
  | ok r toolResult =>
    cases htool : r.tool with
    | none =>
      rw [chatAux_succ_ok_noTool env mk fuel round msgs st r toolResult h henv htool]
      simp [List.countP_append, List.countP_cons,
        countP_map_progress Event.isRequest r.chunks (fun c => rfl), Event.isRequest]
    | some t =>
      rw [chatAux_succ_ok_tool env mk fuel round msgs st r toolResult t h henv htool]
      simp [List.countP_append, List.countP_cons,
        countP_map_progress Event.isRequest r.chunks (fun c => rfl), Event.isRequest]

/-- **C3** (amended).  `isReady` returns `false` exactly when the provider's
`apiSchema` requires one of `model`, `base`, `key` and the corresponding
setting is missing (first conjunct) — so the fail-fast configuration check
exists and is deterministic.  However, `chat` itself performs no readiness
check: it does not consult the settings at all, and any top-level invocation
issues at least one network request regardless of the configuration (second
conjunct), so a missing setting does **not** prevent the network call; the
readiness check must be invoked by the caller. -/
theorem C3_amended :
    (∀ (schema : List String) (api : ApiSettings),
       isReady schema api = false ↔
         ((schema.contains "model" && api.model == "") ||
          (schema.contains "base" && api.base == "") ||
          (schema.contains "key" && api.key == "")) = true) ∧
    (∀ (env : Nat → RoundOutcome) (mk : PendingTool → String → List String)
       (round : Nat) (msgs : List String) (st : SvcState),
       st.currentRecursionDepth = 0 →
       1 ≤ ((chat env mk round msgs st).1).countP Event.isRequest) := by
  constructor
  · intro schema api
    unfold isReady
    split_ifs with h1 h2 h3 <;> simp_all
  · intro env mk round msgs st h0
    rw [chat_eq_chatAux env mk round msgs st h0]
    exact chatAux_request_pos env mk MAX_RECURSION_DEPTH round msgs st
      (by rw [resetIfTop_depth, h0]; norm_num [MAX_RECURSION_DEPTH])

/-- **C3** counterexample: with a schema requiring `model`, `base` and `key`
and a configuration whose `key` is missing, the provider is not ready — yet
invoking `chat` (which never consults the settings) still issues a network
request instead of failing fast with a configuration error. -/
theorem C3_counterexample :
    isReady ["model", "base", "key"]
      { base := "https://api.moonshot.cn", key := "", model := "moonshot-v1-8k" } =
      false ∧
    ((chat envOneShot mkNoMsgs 0 [] stFresh).1).countP Event.isRequest = 1 := by
  decide

/-- **C3** witness. -/
theorem C3_witness :
    isReady ["model"] { base := "b", key := "k", model := "" } = false ∧
    1 ≤ ((chat envAllTool mkNoMsgs 0 [] stFresh).1).countP Event.isRequest :=
  ⟨(C3_amended.1 ["model"] { base := "b", key := "k", model := "" }).mpr (by decide),
   C3_amended.2 envAllTool mkNoMsgs 0 [] stFresh rfl⟩

/-- Every tool-host invocation occurring in any `chat` trace carries no
cancellation signal: the argument object is always built by
`mkCallToolRequest`, whose `signal` is `none`. -/
theorem chatAux_callTool_signal (env : Nat → RoundOutcome)
    (mk : PendingTool → String → List String) :
    ∀ fuel round msgs st req,
      Event.callTool req ∈ (chatAux env mk fuel round msgs st).1 →
      req.signal = none := by
  intro fuel
  induction fuel with
  | zero => intro round msgs st req h; simp [chatAux] at h
  | succ f ih =>
    intro round msgs st req h
    by_cases hc : MAX_RECURSION_DEPTH ≤ (resetIfTop st).currentRecursionDepth
    · rw [chatAux_succ_ceiling env mk f round msgs st hc] at h
      simp at h
    · have hlt := lt_of_not_le hc
      cases henv : env round with
      | noReader =>
        rw [chatAux_succ_noReader env mk f round msgs st hlt henv] at h
        simp at h
      | throwErr chunks e aborted =>
        rw [chatAux_succ_throwErr env mk f round msgs st chunks e aborted hlt henv] at h
        simp [List.mem_append, List.mem_map] at h
      | ok r toolResult =>
        cases htool : r.tool with
        | none =>
          rw [chatAux_succ_ok_noTool env mk f round msgs st r toolResult hlt henv htool] at h
          simp [List.mem_append, List.mem_map] at h
        | some t =>
          rw [chatAux_succ_ok_tool env mk f round msgs st r toolResult t hlt henv htool] at h
          simp at h
          rcases h with h | h
          · rw [h]; rfl
          · exact ih _ _ _ _ h

/-- **C9** (amended).  Of the three suspension points, the network request
is wired for cancellation: `MoonshotChatService.makeRequest` passes the
per-round `AbortController`'s signal in the `fetch` options (first
conjunct), and aborting that signal cancels both awaiting the response
headers and awaiting each chunk of the body read from `response.body`.  The
Tool Host invocation, however, is **not** cancellable by `abort()`: the
`callTool` argument object is built from `client`, `name` and `args` alone
and carries no cancellation signal (second conjunct), and consequently no
tool-host invocation in any `chat` run receives one (third conjunct). -/
theorem C9_amended :
    (∀ key body, (moonshotFetchInit key body).signal = some ()) ∧
    (∀ c n a, (mkCallToolRequest c n a).signal = none) ∧
    (∀ (env : Nat → RoundOutcome) (mk : PendingTool → String → List String)
       (round : Nat) (msgs : List String) (st : SvcState)
       (req : CallToolRequest),
       Event.callTool req ∈ (chat env mk round msgs st).1 →
       req.signal = none) := by
  refine ⟨fun key body => rfl, fun c n a => rfl, ?_⟩
  intro env mk round msgs st req h
  rw [chat] at h
  exact chatAux_callTool_signal env mk _ round msgs st req h

/-- **C9** counterexample: in a run that performs tool-host invocations
(at least one `callTool` — here ten), none of them carries a cancellation
signal, refuting "the Tool Host invocation receives and honors the
cancellation signal". -/
theorem C9_counterexample :
    ((chat envAllTool mkNoMsgs 0 [] stFresh).1).countP
      (fun e => match e with
        | Event.callTool req => req.signal.isSome
        | _ => false) = 0 ∧
    1 ≤ ((chat envAllTool mkNoMsgs 0 [] stFresh).1).countP
      (fun e => match e with
        | Event.callTool _ => true
        | _ => false) := by
  decide

/-- **C9** witness. -/
theorem C9_witness :
    (mkCallToolRequest "c" (some "t") "targs").signal = none :=
  C9_amended.2.2 envAllTool mkNoMsgs 0 [] stFresh
    (mkCallToolRequest "c" (some "t") "targs") (by decide)

/-- **C10**.  Every message the chat store exposes has an array `toolCalls`:
`processMessage` returns an array for every input — null/undefined message,
null/undefined/string/array/other field, unparseable string, string parsing
to a non-array — and never throws (it is a total function of the modelled
`JSON.parse`); the message `createMessage` stores and re-processes, and
every row produced by `fetchMessages`' post-processing, likewise carry an
array `toolCalls`. -/
theorem C10_toolCalls_always_array :
    (∀ (parse : String → Option JVal) (m : Option DbMessage),
       ∃ l, (processMessage parse m).toolCalls = JVal.arr l) ∧
    (∀ (parse : String → Option JVal) (stringify : List ToolCall → String)
       (id : String) (toolCalls : Option (List ToolCall)),
       ∃ l, (createMessageProcessed parse stringify id toolCalls).toolCalls =
         JVal.arr l) ∧
    (∀ (parse : String → Option JVal) (rows : List DbMessage)
       (m : InternalMessage), m ∈ fetchProcessMessages parse rows →
       ∃ l, m.toolCalls = JVal.arr l) := by
  have hp : ∀ (parse : String → Option JVal) (m : Option DbMessage),
      ∃ l, (processMessage parse m).toolCalls = JVal.arr l := by
    intro parse m
    cases m with
    | none => exact ⟨[], rfl⟩
    | some mm =>
      cases h : mm.toolCalls with
      | null => exact ⟨[], by simp [processMessage, h]⟩
      | undef => exact ⟨[], by simp [processMessage, h]⟩
      | str s =>
        cases hp : parse s with
        | none => exact ⟨[], by simp [processMessage, h, hp]⟩
        | some v =>
          cases v with
          | null => exact ⟨[], by simp [processMessage, h, hp]⟩
          | undef => exact ⟨[], by simp [processMessage, h, hp]⟩
          | str s2 => exact ⟨[], by simp [processMessage, h, hp]⟩
          | arr l => exact ⟨l, by simp [processMessage, h, hp]⟩
          | other => exact ⟨[], by simp [processMessage, h, hp]⟩
      | arr l => exact ⟨l, by simp [processMessage, h]⟩
      | other => exact ⟨[], by simp [processMessage, h]⟩
  refine ⟨hp, fun parse stringify id toolCalls => hp parse _, ?_⟩
  intro parse rows m hm
  simp only [fetchProcessMessages, List.mem_map] at hm
  obtain ⟨row, -, hrow⟩ := hm
  by_cases ht : jvTruthy row.toolCalls
  · rw [if_pos ht] at hrow
    rw [← hrow]
    exact hp parse (some row)
  · rw [if_neg ht] at hrow
    exact ⟨[], by rw [← hrow]⟩

/-- **C10** witness. -/
theorem C10_witness :
    ∃ l, (InternalMessage.mk "m1" (JVal.arr [])).toolCalls = JVal.arr l :=
  C10_toolCalls_always_array.2.2 (fun _ => none)
    [{ id := "m1", toolCalls := JVal.null }]
    { id := "m1", toolCalls := JVal.arr [] } (by decide)
